import Mathlib

/-!
Shallow embedding of the pmtud daemon's capture-classify-ratelimit-forward
pipeline (src/main.c, function handle_packet and its helpers).

Frames are modelled as functions from byte offset to byte value; every read
of the C code's uint8_t buffer is rendered as a read modulo 256.  The
hashlimit token-bucket component and the port bitmap are not part of the
given sources, so they are modelled from the specification text.
-/

namespace Pmtud

/-- Byte read from a frame buffer: the C buffer holds uint8_t, so every read
is reduced modulo 256. -/
def B (p : Nat → Nat) (i : Nat) : Nat := p i % 256

/-- Modelled from the spec: a rate-limit bucket is a record of the occupant
key, a token count and the last-refill monotonic timestamp (section 3).
Tokens are rationals standing in for the C doubles. -/
structure Bucket where
  key : List Nat
  tokens : ℚ
  lastNs : Nat
deriving DecidableEq

/-- Modelled from the spec: a rate-limit table is a fixed-size array of
buckets indexed by hash(key) mod capacity, single-slot, no chaining
(section 3).  The hashlimit implementation file is not among the given
sources. -/
structure Hashlimit where
  capacity : Nat
  ratePps : ℚ
  burst : ℚ
  slots : List (Option Bucket)
deriving DecidableEq

/-- Rational addition written out on numerators and denominators, so that
the spec-modelled token arithmetic evaluates by kernel reduction. -/
def qAdd (a b : ℚ) : ℚ := mkRat (a.num * b.den + b.num * a.den) (a.den * b.den)

/-- Rational subtraction written out on numerators and denominators. -/
def qSub (a b : ℚ) : ℚ := mkRat (a.num * b.den - b.num * a.den) (a.den * b.den)

/-- Rational multiplication written out on numerators and denominators. -/
def qMul (a b : ℚ) : ℚ := mkRat (a.num * b.num) (a.den * b.den)

/-- Rational order comparison by cross multiplication (denominators are
positive). -/
def qLe (a b : ℚ) : Prop := a.num * b.den ≤ b.num * a.den

instance (a b : ℚ) : Decidable (qLe a b) := by
  unfold qLe; infer_instance

/-- Minimum of two rationals under qLe. -/
def qMin (a b : ℚ) : ℚ := if qLe a b then a else b

/-- Modelled from the spec: a fast non-cryptographic mixing hash over the key
bytes (section 4.B says any such hash may be used; no stability is
required). -/
def specHash (key : List Nat) : Nat :=
  key.foldl (fun a b => (a * 31 + b + 1) % 18446744073709551616) 5381

/-- Modelled from the spec: hashlimit_alloc builds a table of empty slots
(section 4.B). -/
def hashlimit_alloc (capacity : Nat) (ratePps burst : ℚ) : Hashlimit :=
  ⟨capacity, ratePps, burst, List.replicate capacity none⟩

/-- Modelled from the spec, section 4.B: a touch on key K at time t picks
slot hash(K) mod capacity; an empty or foreign slot is reset to a full
bucket, a matching slot is refilled at ratePps up to burst; the event is
admitted, consuming one token, exactly when at least one token is
available. -/
def hashlimit_touch_hash (t : Hashlimit) (key : List Nat) (now : Nat) :
    Bool × Hashlimit :=
  let slot := specHash key % t.capacity
  let b1 : Bucket :=
    match t.slots.getD slot none with
    | none => ⟨key, t.burst, now⟩
    | some b =>
      if b.key = key then
        ⟨key, qMin t.burst (qAdd b.tokens
          (qMul t.ratePps (mkRat (now - b.lastNs : Nat) 1000000000))), now⟩
      else ⟨key, t.burst, now⟩
  if qLe 1 b1.tokens then
    (true, ⟨t.capacity, t.ratePps, t.burst,
      t.slots.set slot (some ⟨key, qSub b1.tokens 1, now⟩)⟩)
  else
    (false, ⟨t.capacity, t.ratePps, t.burst, t.slots.set slot (some b1)⟩)

/-- Modelled from the spec: the scalar-key touch used for the interface
table is the byte-key touch on the one-byte key (section 4.B lists touch
and touch_hash with the same semantics). -/
def hashlimit_touch (t : Hashlimit) (k : Nat) (now : Nat) : Bool × Hashlimit :=
  hashlimit_touch_hash t [k] now

/-- Modelled from the spec: bitmap_get of the port bitmap, a dense bit set
over ports 0..65535 (section 4.A); present means only listed source ports
pass. -/
def bitmap_get (pm : Nat → Bool) (i : Nat) : Bool := pm i

/-- Daemon state consumed by handle_packet (struct state in main.c),
restricted to the fields the packet path reads: the two rate-limit tables,
the verbosity level, the dry-run flag and the optional port bitmap. -/
structure State where
  sources : Hashlimit
  ifaces : Hashlimit
  verbose : Nat
  dry_run : Bool
  ports_map : Option (Nat → Bool)

/-- One line printed by handle_packet: the source key handed to
ip_to_string (empty when the C hash pointer is NULL), the reason string,
and whether the full hex dump of the frame is appended. -/
structure LogLine where
  key : List Nat
  reason : String
  withHex : Bool
deriving DecidableEq

/-- Result of one handle_packet call: the C return value, the final value
of the reason variable, the frame buffer after any in-place writes, the two
rate-limit tables, the printed lines, and whether send was invoked. -/
structure HPOut where
  result : Int
  reason : String
  frame : Nat → Nat
  sources : Hashlimit
  ifaces : Hashlimit
  log : List LogLine
  sent : Bool

/-- Outcome of the L3 demux and ICMP match (main.c lines 122-158): either a
reject with the reason the goto carries, or the hash-key offset, hash-key
length and icmp offset of a frame that passed. -/
inductive L3Res where
  | reject (reason : String)
  | ok (hashOff hashLen icmpOff : Nat)
deriving DecidableEq

/-- L3 demux and ICMP match, main.c lines 122-158.  The IPv4 arm requires
EtherType 0x0800 and version nibble 4, header length at least 20, protocol
byte 1 at l3+9 and the frame to span l3+56; the hash key is the 4 bytes at
l3+12 and the icmp offset is l3 plus the IPv4 header length.  The IPv6 arm
requires EtherType 0x86dd and version nibble 6, next-header 58 at l3+6 and
the frame to span l3+80; the hash key is the 16 bytes at l3+8 and the icmp
offset is l3+40.  Anything else rejects. -/
def classifyL3 (p : Nat → Nat) (len l3 et : Nat) : L3Res :=
  if et = 0x0800 ∧ B p l3 / 16 = 4 then
    let l3HdrLen := (B p l3 % 16) * 4
    if l3HdrLen < 20 then .reject "IPv4 header invalid length"
    else if B p (l3 + 9) = 1 ∧ l3 + 20 + 8 + 20 + 8 ≤ len then
      .ok (l3 + 12) 4 (l3 + l3HdrLen)
    else .reject "Invalid protocol or too short"
  else if et = 0x86dd ∧ B p l3 / 16 = 6 then
    if B p (l3 + 6) = 58 ∧ l3 + 40 + 8 + 32 ≤ len then
      .ok (l3 + 8) 16 (l3 + 40)
    else .reject "Invalid protocol or too short"
  else .reject "Invalid protocol or too short"

/-- The optional inner-payload port filter, main.c lines 160-193: with a
port bitmap configured, the inner packet starts at icmpOff + 8, at least 9
further bytes are required, the switch reads the high nibble of the byte at
payload offset + 8 (0x40 selects IPv4 with IHL taken from the byte at the
payload offset, 0x60 selects IPv6, anything else rejects), and the two
bytes at the resulting L4 offset are the big-endian source port looked up
in the bitmap.  Returns some reason on reject, none on pass. -/
def portCheck (pm? : Option (Nat → Bool)) (p : Nat → Nat) (len icmpOff : Nat) :
    Option String :=
  match pm? with
  | none => none
  | some pm =>
    let payloadOff := icmpOff + 8
    if len < payloadOff + 9 then some "Payload too short"
    else
      let l4? : Option Nat :=
        if B p (payloadOff + 8) / 16 = 4 then
          some (payloadOff + (B p payloadOff % 16) * 4)
        else if B p (payloadOff + 8) / 16 = 6 then
          some (payloadOff + 40)
        else none
      match l4? with
      | none => some "Invalid ICMP payload"
      | some l4 =>
        if len < l4 + 2 then some "Too short to read L4 source port"
        else if bitmap_get pm (B p l4 * 256 + B p (l4 + 1)) then none
        else some "L4 source port not on whitelist"

/-- In-place Ethernet address rewrite before transmission, main.c lines
195-208: bytes 0-5 become 0xff, bytes 6-11 become the saved original bytes
0-5 (the ingress destination MAC), everything else is left alone. -/
def rewriteFrame (p : Nat → Nat) : Nat → Nat :=
  fun i => if i < 6 then 255 else if i < 12 then B p (i - 6) else p i

/-- The source key bytes handed to hashlimit_touch_hash and ip_to_string:
the hashLen bytes starting at hashOff. -/
def hashKey (p : Nat → Nat) (off hlen : Nat) : List Nat :=
  (List.range hlen).map (fun j => B p (off + j))

/-- Lines printed on the reject path, main.c lines 236-242: verbose above 2
prints the key, reason, and hex dump; verbose above 1 prints the key and
reason; otherwise nothing. -/
def rejectLog (verbose : Nat) (key : List Nat) (reason : String) :
    List LogLine :=
  if verbose > 2 then [⟨key, reason, true⟩]
  else if verbose > 1 then [⟨key, reason, false⟩]
  else []

/-- Lines printed on the admit path, main.c lines 219-225: verbose above 2
prints the key, the reason "transmitting" and a hex dump; verbose exactly 1
prints the key and reason; otherwise (including verbose 2) nothing. -/
def admitLog (verbose : Nat) (key : List Nat) : List LogLine :=
  if verbose > 2 then [⟨key, "transmitting", true⟩]
  else if verbose = 1 then [⟨key, "transmitting", false⟩]
  else []

/-- Whether the first six bytes of the frame are all 0xff, main.c lines
107-110. -/
def isBroadcastDst (p : Nat → Nat) : Prop :=
  B p 0 = 255 ∧ B p 1 = 255 ∧ B p 2 = 255 ∧ B p 3 = 255 ∧ B p 4 = 255 ∧
    B p 5 = 255

instance (p : Nat → Nat) : Decidable (isBroadcastDst p) := by
  unfold isBroadcastDst; infer_instance

/-- The outer EtherType as first read at offset 12, main.c line 116. -/
def ethType0 (p : Nat → Nat) : Nat := B p 12 * 256 + B p 13

/-- The L3 offset: 18 after an 802.1Q tag, otherwise 14 (main.c lines
115-120). -/
def l3Offset (p : Nat → Nat) : Nat := if ethType0 p = 0x8100 then 18 else 14

/-- The effective EtherType: re-read at offset 16 after an 802.1Q tag
(main.c lines 117-119). -/
def ethType (p : Nat → Nat) : Nat :=
  if ethType0 p = 0x8100 then B p 16 * 256 + B p 17 else ethType0 p

/-- handle_packet, main.c lines 96-245, over a frame p of data_len bytes at
monotonic time now.  The pipeline: minimum-length check, broadcast guard,
L3 classification, optional port filter, in-place Ethernet rewrite, source
rate limit, interface rate limit, then transmit (skipped under dry run). -/
def handle_packet (st : State) (p : Nat → Nat) (len : Nat) (now : Nat) :
    HPOut :=
  if len < 14 + 20 + 8 + 8 then
    ⟨-1, "unknown", p, st.sources, st.ifaces, [], false⟩
  else if isBroadcastDst p then
    ⟨-1, "unknown", p, st.sources, st.ifaces, [], false⟩
  else
    match classifyL3 p len (l3Offset p) (ethType p) with
    | .reject r =>
      ⟨-1, r, p, st.sources, st.ifaces, rejectLog st.verbose [] r, false⟩
    | .ok hOff hLen icmpOff =>
      let key := hashKey p hOff hLen
      match portCheck st.ports_map p len icmpOff with
      | some r =>
        ⟨-1, r, p, st.sources, st.ifaces, rejectLog st.verbose key r, false⟩
      | none =>
        let p2 := rewriteFrame p
        match hashlimit_touch_hash st.sources key now with
        | (false, srcs) =>
          ⟨-1, "Ratelimited on source IP", p2, srcs, st.ifaces,
            rejectLog st.verbose key "Ratelimited on source IP", false⟩
        | (true, srcs) =>
          match hashlimit_touch st.ifaces 0 now with
          | (false, ifs) =>
            ⟨-1, "Ratelimited on outgoing interface", p2, srcs, ifs,
              rejectLog st.verbose key "Ratelimited on outgoing interface",
              false⟩
          | (true, ifs) =>
            ⟨1, "transmitting", p2, srcs, ifs, admitLog st.verbose key,
              !st.dry_run⟩

/-- The icmp offset a frame's classification computes, when the frame
reaches the rate-limit stage of the pipeline: none when the frame is
dropped for length, broadcast destination or classification failure. -/
def icmpOffsetOf (p : Nat → Nat) (len : Nat) : Option Nat :=
  if len < 14 + 20 + 8 + 8 then none
  else if isBroadcastDst p then none
  else
    match classifyL3 p len (l3Offset p) (ethType p) with
    | .reject _ => none
    | .ok _ _ icmpOff => some icmpOff

/-! Concrete fixtures: a minimal valid IPv4 ICMP frag-needed frame (70
bytes: 14 Ethernet, 20 IPv4, 8 ICMP, 20 quoted IPv4, 8 quoted TCP) and a
handful of daemon states, used to instantiate the theorems below. -/

/-- A 70-byte IPv4 ICMP type 3 code 4 frame: unicast destination MAC,
EtherType 0x0800, outer IPv4 with IHL 5 and protocol 1 from source
10.0.0.1, ICMP header, then a quoted inner IPv4 header (IHL 5, TTL 0,
protocol TCP) and the first 8 bytes of the quoted TCP header with source
port 443. -/
def frameBytes : List Nat :=
  [0x02, 0x00, 0x00, 0x00, 0x00, 0x01,
   0x02, 0x00, 0x00, 0x00, 0x00, 0x02,
   0x08, 0x00,
   0x45, 0x00, 0x00, 0x38, 0x00, 0x00, 0x00, 0x00, 0x40, 0x01, 0x00, 0x00,
   0x0a, 0x00, 0x00, 0x01,
   0x0a, 0x00, 0x00, 0x02,
   0x03, 0x04, 0x00, 0x00, 0x00, 0x00, 0x05, 0xdc,
   0x45, 0x00, 0x00, 0x28, 0x00, 0x00, 0x00, 0x00, 0x00, 0x06, 0x00, 0x00,
   0xc0, 0xa8, 0x00, 0x01,
   0xc0, 0xa8, 0x00, 0x02,
   0x01, 0xbb, 0x00, 0x50, 0x00, 0x00, 0x00, 0x00]

/-- The fixture frame as a buffer, zero past the end. -/
def frameA : Nat → Nat := fun i => frameBytes.getD i 0

/-- Daemon state with the default rates (sources at rate 1, burst 1.9;
interface at rate 10, burst 19), fresh small tables, verbose 0, no dry run,
no port bitmap. -/
def stBase : State :=
  ⟨hashlimit_alloc 1 1 (mkRat 19 10), hashlimit_alloc 1 10 19, 0, false, none⟩

/-- Like stBase but with a port bitmap whitelisting exactly port 443. -/
def stPorts : State :=
  ⟨hashlimit_alloc 1 1 (mkRat 19 10), hashlimit_alloc 1 10 19, 0, false,
    some (fun x => decide (x = 443))⟩

/-- Like stBase at verbose level 2. -/
def stV2 : State :=
  ⟨hashlimit_alloc 1 1 (mkRat 19 10), hashlimit_alloc 1 10 19, 2, false, none⟩

/-- A state whose sources table already holds an empty bucket for source
10.0.0.1 (tokens 0, refilled at time 0), so the per-source limiter denies
the fixture frame at time 0. -/
def stRLsrc : State :=
  ⟨⟨1, 1, mkRat 19 10, [some ⟨[10, 0, 0, 1], 0, 0⟩]⟩, hashlimit_alloc 1 10 19,
    0, false, none⟩

/-- A state whose interface table already holds an empty bucket for the
constant interface key (tokens 0, refilled at time 0), so the per-interface
limiter denies at time 0 while the fresh sources table admits. -/
def stRLif : State :=
  ⟨hashlimit_alloc 1 1 (mkRat 19 10), ⟨1, 10, 19, [some ⟨[0], 0, 0⟩]⟩,
    0, false, none⟩

/-- An all-ones frame: broadcast destination MAC. -/
def bcastFrame : Nat → Nat := fun _ => 255

/-- The fixture frame with the ICMP type and code bytes (offsets 34 and 35)
zeroed. -/
def frameB : Nat → Nat :=
  fun i => if i = 34 then 0 else if i = 35 then 0 else frameA i

/-- The fixture frame with garbage past the captured length. -/
def frameC : Nat → Nat := fun i => if i < 70 then frameA i else 77

/-! Helper lemmas shared by several of the claim theorems below. -/

theorem classifyL3_reject_reason (p : Nat → Nat) (len l3 et : Nat) (r : String)
    (h : classifyL3 p len l3 et = L3Res.reject r) :
    r = "IPv4 header invalid length" ∨ r = "Invalid protocol or too short" := by
  simp only [classifyL3] at h
  repeat' split at h
  all_goals simp_all

theorem portCheck_reject_reason (pm? : Option (Nat → Bool)) (p : Nat → Nat)
    (len icmpOff : Nat) (r : String)
    (h : portCheck pm? p len icmpOff = some r) :
    r = "Payload too short" ∨ r = "Invalid ICMP payload" ∨
      r = "Too short to read L4 source port" ∨
      r = "L4 source port not on whitelist" := by
  simp only [portCheck] at h
  repeat' split at h
  all_goals simp_all

theorem hp_frame_on_accept (st : State) (p : Nat → Nat) (len now : Nat)
    (h : (handle_packet st p len now).result = 1) :
    (handle_packet st p len now).frame = rewriteFrame p := by
  simp only [handle_packet] at h ⊢
  repeat' (split at h)
  all_goals (try simp_all)
  all_goals (repeat' split)
  all_goals simp_all
  all_goals omega

/-- C4: a frame whose ingress destination MAC is ff:ff:ff:ff:ff:ff is never
admitted: handle_packet returns -1 with the rate-limit tables, the frame
bytes, the log and the send flag all untouched, before any classification
or rate-limit state change. -/
theorem C4_broadcast_never_admitted (st : State) (p : Nat → Nat)
    (len now : Nat) (h : isBroadcastDst p) :
    handle_packet st p len now =
      ⟨-1, "unknown", p, st.sources, st.ifaces, [], false⟩ := by
  unfold handle_packet
  split
  · rfl
  · simp [h]

theorem C4_witness :
    handle_packet stBase bcastFrame 70 0 =
      ⟨-1, "unknown", bcastFrame, stBase.sources, stBase.ifaces, [],
        false⟩ :=
  C4_broadcast_never_admitted stBase bcastFrame 70 0 (by decide)

/-- C1: on every admitted frame the transmitted buffer carries 0xff in
bytes 0-5, the original destination MAC (ingress bytes 0-5) in bytes 6-11,
and every byte at offset 12 or above unchanged from ingress. -/
theorem C1_admitted_frame_rewrite (st : State) (p : Nat → Nat)
    (len now : Nat) (h : (handle_packet st p len now).result = 1) :
    (∀ i, i < 6 → B (handle_packet st p len now).frame i = 255) ∧
    (∀ i, i < 6 → B (handle_packet st p len now).frame (6 + i) = B p i) ∧
    (∀ i, 12 ≤ i → B (handle_packet st p len now).frame i = B p i) := by
  rw [hp_frame_on_accept st p len now h]
  refine ⟨fun i hi => ?_, fun i hi => ?_, fun i hi => ?_⟩
  · simp [rewriteFrame, B, hi]
  · have h6 : ¬(6 + i < 6) := by omega
    have h12 : 6 + i < 12 := by omega
    simp [rewriteFrame, B, h6, h12, Nat.mod_mod_of_dvd]
  · have h6 : ¬(i < 6) := by omega
    have h12 : ¬(i < 12) := by omega
    simp [rewriteFrame, B, h6, h12]

theorem C1_witness :
    B (handle_packet stBase frameA 70 0).frame 0 = 255 ∧
    B (handle_packet stBase frameA 70 0).frame (6 + 0) = B frameA 0 ∧
    B (handle_packet stBase frameA 70 0).frame 12 = B frameA 12 :=
  ⟨(C1_admitted_frame_rewrite stBase frameA 70 0 (by decide)).1 0
      (by decide),
   (C1_admitted_frame_rewrite stBase frameA 70 0 (by decide)).2.1 0
      (by decide),
   (C1_admitted_frame_rewrite stBase frameA 70 0 (by decide)).2.2 12
      (by decide)⟩

/-- C2, counterexample to the claim as stated: a frame that passes
classification but is denied by the per-source rate limiter is rejected
(result -1) yet its byte 0 has been overwritten with 0xff, so a rate-limit
rejection does not leave the frame untouched. -/
theorem C2_counterexample :
    (handle_packet stRLsrc frameA 70 0).result = -1 ∧
    ¬ (handle_packet stRLsrc frameA 70 0).frame 0 = frameA 0 := by decide

/-- C2 as amended: the in-place Ethernet rewrite happens after the
classification and port-whitelist checks but before the two rate-limit
checks.  A frame rejected with any reason other than the two rate-limit
reasons has every byte unchanged from ingress; a frame rejected by either
rate limiter carries the full broadcast rewrite (bytes 0-5 set to 0xff,
bytes 6-11 set to the original bytes 0-5, the rest unchanged). -/
theorem C2_rewrite_before_ratelimit (st : State) (p : Nat → Nat)
    (len now : Nat) :
    ((handle_packet st p len now).result = -1 →
      (handle_packet st p len now).reason ≠ "Ratelimited on source IP" →
      (handle_packet st p len now).reason ≠
        "Ratelimited on outgoing interface" →
      (handle_packet st p len now).frame = p) ∧
    ((handle_packet st p len now).reason = "Ratelimited on source IP" ∨
      (handle_packet st p len now).reason =
        "Ratelimited on outgoing interface" →
      (handle_packet st p len now).frame = rewriteFrame p) := by
  simp only [handle_packet]
  repeat' split
  all_goals simp_all
  · next r heq =>
      rcases classifyL3_reject_reason _ _ _ _ _ heq with h | h <;> simp [h]
  · next r heq =>
      rcases portCheck_reject_reason _ _ _ _ _ heq with h | h | h | h <;>
        simp [h]

theorem C2_witness :
    (handle_packet stRLsrc frameA 70 0).frame = rewriteFrame frameA :=
  (C2_rewrite_before_ratelimit stRLsrc frameA 70 0).2 (Or.inl (by decide))

/-- C5: a frame offered to the L3 demux as IPv6 (EtherType 0x86dd) passes
classification exactly when the version nibble at the L3 offset is 6, the
next-header byte at L3+6 is 58 and the frame spans L3 + 40 + 8 + 32 bytes;
it then yields icmp offset L3 + 40 and the 16-byte rate-limit source key at
L3 + 8. -/
theorem C5_ipv6_classification (p : Nat → Nat) (len l3 : Nat) :
    classifyL3 p len l3 0x86dd = L3Res.ok (l3 + 8) 16 (l3 + 40) ↔
      (B p l3 / 16 = 6 ∧ B p (l3 + 6) = 58 ∧ l3 + 40 + 8 + 32 ≤ len) := by
  simp only [classifyL3]
  repeat' split
  all_goals simp_all

/-- C3, demonstrating the divergence: on the fixture frame the inner IP
header starts at payload offset 42 with version nibble 4 (byte 0x45), the
byte at offset 50 (the inner TTL, which the code mistakes for the version
byte) has high nibble 0, and the inner L4 source port 443 is whitelisted;
the claim therefore admits the frame, yet handle_packet rejects it with
reason Invalid ICMP payload because the switch reads the version nibble at
payload offset + 8 instead of at the payload offset. -/
theorem C3_version_nibble_misread :
    (handle_packet stPorts frameA 70 0).result = -1 ∧
    (handle_packet stPorts frameA 70 0).reason = "Invalid ICMP payload" ∧
    B frameA 42 / 16 = 4 ∧
    B frameA 50 / 16 = 0 ∧
    bitmap_get (fun x => decide (x = 443))
      (B frameA 62 * 256 + B frameA 63) = true := by
  decide

/-- C6, demonstrating the divergence: at verbose level 2 an admitted frame
produces no printed line at all, because the admit path prints only when
verbose is exactly 1 or above 2, while the claim requires a line for every
admitted packet whenever verbose is at least 1. -/
theorem C6_verbose_two_admit_prints_nothing :
    stV2.verbose = 2 ∧
    (handle_packet stV2 frameA 70 0).result = 1 ∧
    (handle_packet stV2 frameA 70 0).log = [] := by decide

/-- C7: the dry-run flag changes nothing but the final send.  For any state
the runs with the flag set and unset produce the same result, reason, frame
bytes, rate-limit tables and log lines; with the flag set nothing is ever
sent, with it unset a send happens exactly on admission. -/
theorem C7_dry_run_equivalence (st : State) (p : Nat → Nat) (len now : Nat) :
    (handle_packet { st with dry_run := true } p len now).result =
      (handle_packet { st with dry_run := false } p len now).result ∧
    (handle_packet { st with dry_run := true } p len now).reason =
      (handle_packet { st with dry_run := false } p len now).reason ∧
    (handle_packet { st with dry_run := true } p len now).frame =
      (handle_packet { st with dry_run := false } p len now).frame ∧
    (handle_packet { st with dry_run := true } p len now).sources =
      (handle_packet { st with dry_run := false } p len now).sources ∧
    (handle_packet { st with dry_run := true } p len now).ifaces =
      (handle_packet { st with dry_run := false } p len now).ifaces ∧
    (handle_packet { st with dry_run := true } p len now).log =
      (handle_packet { st with dry_run := false } p len now).log ∧
    (handle_packet { st with dry_run := true } p len now).sent = false ∧
    ((handle_packet { st with dry_run := false } p len now).sent = true ↔
      (handle_packet { st with dry_run := false } p len now).result = 1) := by
  obtain ⟨a, b, v, d, pm⟩ := st
  simp only [handle_packet]
  repeat' split
  all_goals simp_all

/-- C9: when a frame passes classification, consumes a token from its
source bucket, and is then denied by the per-interface limiter (run s1),
the frame is rejected but the sources table ends exactly as in a run s2
with the same sources table and port bitmap in which the frame is fully
admitted: the consumed source token is not refunded. -/
theorem C9_source_token_not_refunded (s1 s2 : State) (p : Nat → Nat)
    (len now : Nat)
    (hsrc : s1.sources = s2.sources) (hpm : s1.ports_map = s2.ports_map)
    (h1 : (handle_packet s1 p len now).reason =
      "Ratelimited on outgoing interface")
    (h2 : (handle_packet s2 p len now).result = 1) :
    (handle_packet s1 p len now).result = -1 ∧
    (handle_packet s1 p len now).sources =
      (handle_packet s2 p len now).sources := by
  simp only [handle_packet] at h1 h2 ⊢
  repeat' split at h1
  all_goals (try simp_all)
  split at h2
  all_goals (repeat' split)
  all_goals simp_all

theorem C9_witness :
    stRLif.sources = stBase.sources ∧
    (handle_packet stRLif frameA 70 0).result = -1 ∧
    (handle_packet stRLif frameA 70 0).sources =
      (handle_packet stBase frameA 70 0).sources :=
  ⟨rfl,
   C9_source_token_not_refunded stRLif stBase frameA 70 0 rfl rfl
     (by decide) (by decide)⟩

/-! Congruence lemmas: every read handle_packet performs is guarded, so its
outcome only depends on the bytes the guards put in range. -/

theorem B_congr (p q : Nat → Nat) (i : Nat) (h : p i = q i) :
    B p i = B q i := by
  unfold B; rw [h]

theorem isBroadcastDst_congr (p q : Nat → Nat)
    (h : ∀ i, i < 6 → p i = q i) :
    isBroadcastDst p ↔ isBroadcastDst q := by
  unfold isBroadcastDst B
  rw [h 0 (by omega), h 1 (by omega), h 2 (by omega), h 3 (by omega),
    h 4 (by omega), h 5 (by omega)]

theorem ethType0_congr (p q : Nat → Nat) (h12 : p 12 = q 12)
    (h13 : p 13 = q 13) : ethType0 p = ethType0 q := by
  unfold ethType0 B; rw [h12, h13]

theorem l3Offset_le (p : Nat → Nat) : l3Offset p = 14 ∨ l3Offset p = 18 := by
  unfold l3Offset; split
  · exact Or.inr rfl
  · exact Or.inl rfl

theorem classifyL3_congr (p q : Nat → Nat) (len l3 et : Nat)
    (h0 : p l3 = q l3) (h6 : p (l3 + 6) = q (l3 + 6))
    (h9 : p (l3 + 9) = q (l3 + 9)) :
    classifyL3 p len l3 et = classifyL3 q len l3 et := by
  unfold classifyL3 B
  rw [h0, h6, h9]

theorem classifyL3_ok_bounds (p : Nat → Nat) (len l3 et hOff hLen ic : Nat)
    (h : classifyL3 p len l3 et = L3Res.ok hOff hLen ic) :
    l3 + 20 ≤ ic ∧ hOff + hLen ≤ ic ∧ hOff + hLen ≤ len := by
  simp only [classifyL3] at h
  split at h
  case isTrue h1 =>
    split at h
    case isTrue h2 => simp at h
    case isFalse h2 =>
      split at h
      case isTrue h3 =>
        simp only [L3Res.ok.injEq] at h
        obtain ⟨e1, e2, e3⟩ := h
        omega
      case isFalse h3 => simp at h
  case isFalse h1 =>
    split at h
    case isTrue h1a =>
      split at h
      case isTrue h3 =>
        simp only [L3Res.ok.injEq] at h
        obtain ⟨e1, e2, e3⟩ := h
        omega
      case isFalse h3 => simp at h
    case isFalse h1a => simp at h

theorem hashKey_congr (p q : Nat → Nat) (off hlen : Nat)
    (h : ∀ j, j < hlen → p (off + j) = q (off + j)) :
    hashKey p off hlen = hashKey q off hlen := by
  unfold hashKey
  apply List.map_congr_left
  intro j hj
  exact B_congr p q _ (h j (List.mem_range.mp hj))

theorem portCheck_congr (pm? : Option (Nat → Bool)) (p q : Nat → Nat)
    (len icmpOff : Nat)
    (h : ∀ i, icmpOff + 8 ≤ i → i < len → p i = q i) :
    portCheck pm? p len icmpOff = portCheck pm? q len icmpOff := by
  cases pm? with
  | none => rfl
  | some pm =>
    simp only [portCheck]
    by_cases hlen : len < icmpOff + 8 + 9
    · simp [hlen]
    · have hb8 : B p (icmpOff + 8 + 8) = B q (icmpOff + 8 + 8) :=
        B_congr p q _ (h _ (by omega) (by omega))
      have hb0 : B p (icmpOff + 8) = B q (icmpOff + 8) :=
        B_congr p q _ (h _ (by omega) (by omega))
      simp only [hlen, if_false, hb8, hb0]
      by_cases h4 : B q (icmpOff + 8 + 8) / 16 = 4
      · simp only [h4, if_pos]
        by_cases hl4 : len < icmpOff + 8 + (B q (icmpOff + 8) % 16) * 4 + 2
        · simp [hl4]
        · have e1 : B p (icmpOff + 8 + (B q (icmpOff + 8) % 16) * 4) =
              B q (icmpOff + 8 + (B q (icmpOff + 8) % 16) * 4) :=
            B_congr p q _ (h _ (by omega) (by omega))
          have e2 : B p (icmpOff + 8 + (B q (icmpOff + 8) % 16) * 4 + 1) =
              B q (icmpOff + 8 + (B q (icmpOff + 8) % 16) * 4 + 1) :=
            B_congr p q _ (h _ (by omega) (by omega))
          simp [hl4, e1, e2]
      · by_cases h6 : B q (icmpOff + 8 + 8) / 16 = 6
        · simp only [h4, h6, if_pos, if_neg, if_false]
          by_cases hl4 : len < icmpOff + 8 + 40 + 2
          · simp [hl4]
          · have e1 : B p (icmpOff + 8 + 40) = B q (icmpOff + 8 + 40) :=
              B_congr p q _ (h _ (by omega) (by omega))
            have e2 : B p (icmpOff + 8 + 40 + 1) =
                B q (icmpOff + 8 + 40 + 1) :=
              B_congr p q _ (h _ (by omega) (by omega))
            simp [hl4, e1, e2]
        · simp [h4, h6]

theorem rewriteFrame_congr (p q : Nat → Nat) (len : Nat)
    (h : ∀ i, i < len → p i = q i) :
    ∀ i, i < len → rewriteFrame p i = rewriteFrame q i := by
  intro i hi
  unfold rewriteFrame
  split
  · rfl
  · split
    · exact B_congr p q _ (h _ (by omega))
    · exact h i hi

/-- C8: handle_packet reads only frame indices below data_len.  Any two
buffers that agree on [0, data_len) yield the same result, reason,
rate-limit tables, log and send decision, and output buffers that again
agree on [0, data_len): every access is guarded by a length check keeping
the index in range. -/
theorem C8_reads_stay_in_bounds (st : State) (p q : Nat → Nat)
    (len now : Nat) (h : ∀ i, i < len → p i = q i) :
    (handle_packet st p len now).result =
      (handle_packet st q len now).result ∧
    (handle_packet st p len now).reason =
      (handle_packet st q len now).reason ∧
    (handle_packet st p len now).sources =
      (handle_packet st q len now).sources ∧
    (handle_packet st p len now).ifaces =
      (handle_packet st q len now).ifaces ∧
    (handle_packet st p len now).log = (handle_packet st q len now).log ∧
    (handle_packet st p len now).sent = (handle_packet st q len now).sent ∧
    (∀ i, i < len → (handle_packet st p len now).frame i =
      (handle_packet st q len now).frame i) := by
  by_cases hlen : len < 14 + 20 + 8 + 8
  · simp only [handle_packet, if_pos hlen]
    simpa using h
  · have h50 : 50 ≤ len := by omega
    have hl3d := l3Offset_le p
    have hbc := isBroadcastDst_congr p q (fun i hi => h i (by omega))
    have het0 := ethType0_congr p q (h 12 (by omega)) (h 13 (by omega))
    have hl3 : l3Offset p = l3Offset q := by unfold l3Offset; rw [het0]
    have het : ethType p = ethType q := by
      unfold ethType
      rw [het0]
      split
      · exact congrArg₂ (fun a b => a * 256 + b)
          (B_congr p q 16 (h 16 (by omega))) (B_congr p q 17 (h 17 (by omega)))
      · rfl
    have hcl : classifyL3 p len (l3Offset p) (ethType p) =
        classifyL3 q len (l3Offset q) (ethType q) := by
      rw [← hl3, ← het]
      exact classifyL3_congr p q len _ _ (h _ (by omega)) (h _ (by omega))
        (h _ (by omega))
    simp only [handle_packet, if_neg hlen]
    by_cases hb : isBroadcastDst p
    · rw [if_pos hb, if_pos (hbc.mp hb)]
      exact ⟨rfl, rfl, rfl, rfl, rfl, rfl, h⟩
    · rw [if_neg hb, if_neg (fun hqb => hb (hbc.mpr hqb))]
      rw [← hcl]
      cases hc : classifyL3 p len (l3Offset p) (ethType p) with
      | reject r =>
        exact ⟨rfl, rfl, rfl, rfl, rfl, rfl, h⟩
      | ok hOff hLen ic =>
        obtain ⟨hic1, hic2, hic3⟩ :=
          classifyL3_ok_bounds p len (l3Offset p) (ethType p) hOff hLen ic hc
        have hkey : hashKey p hOff hLen = hashKey q hOff hLen :=
          hashKey_congr p q hOff hLen (fun j hj => h (hOff + j) (by omega))
        have hpc : portCheck st.ports_map p len ic =
            portCheck st.ports_map q len ic :=
          portCheck_congr st.ports_map p q len ic
            (fun i _ hi2 => h i hi2)
        dsimp only
        rw [← hpc, ← hkey]
        cases hp2 : portCheck st.ports_map p len ic with
        | some r => exact ⟨rfl, rfl, rfl, rfl, rfl, rfl, h⟩
        | none =>
          have hrw := rewriteFrame_congr p q len h
          cases ht : hashlimit_touch_hash st.sources (hashKey p hOff hLen)
              now with
          | mk adm srcs =>
            cases adm with
            | false => exact ⟨rfl, rfl, rfl, rfl, rfl, rfl, hrw⟩
            | true =>
              cases ht2 : hashlimit_touch st.ifaces 0 now with
              | mk adm2 ifs =>
                cases adm2 with
                | false => exact ⟨rfl, rfl, rfl, rfl, rfl, rfl, hrw⟩
                | true => exact ⟨rfl, rfl, rfl, rfl, rfl, rfl, hrw⟩

theorem C8_witness :
    (handle_packet stBase frameA 70 0).result =
      (handle_packet stBase frameC 70 0).result :=
  (C8_reads_stay_in_bounds stBase frameA frameC 70 0 (by decide)).1

/-- C10: the classifier never reads the ICMP type and code bytes.  If a
frame classifies with icmp offset k, then any frame differing from it only
at offsets k and k+1 receives the same admit or reject decision and the
same rate-limit table updates: the code relies on the BPF capture filter
for the ICMP type and code. -/
theorem C10_icmp_type_code_ignored (st : State) (p q : Nat → Nat)
    (len now k : Nat) (hk : icmpOffsetOf p len = some k)
    (hq : ∀ i, i ≠ k → i ≠ k + 1 → p i = q i) :
    (handle_packet st p len now).result =
      (handle_packet st q len now).result ∧
    (handle_packet st p len now).sources =
      (handle_packet st q len now).sources ∧
    (handle_packet st p len now).ifaces =
      (handle_packet st q len now).ifaces := by
  simp only [icmpOffsetOf] at hk
  split at hk
  case isTrue => simp at hk
  case isFalse hlen =>
    split at hk
    case isTrue => simp at hk
    case isFalse hb =>
      split at hk
      case h_1 => simp at hk
      case h_2 a b ic heq =>
        have hick : ic = k := by simpa using hk
        subst hick
        have hl3d := l3Offset_le p
        obtain ⟨hic1, hic2, hic3⟩ :=
          classifyL3_ok_bounds p len (l3Offset p) (ethType p) a b ic heq
        have hk34 : 34 ≤ ic := by omega
        have hlow : ∀ i, i < ic → p i = q i := fun i hi =>
          hq i (by omega) (by omega)
        have hbc := isBroadcastDst_congr p q (fun i hi => hlow i (by omega))
        have het0 := ethType0_congr p q (hlow 12 (by omega))
          (hlow 13 (by omega))
        have hl3 : l3Offset p = l3Offset q := by unfold l3Offset; rw [het0]
        have het : ethType p = ethType q := by
          unfold ethType
          rw [het0]
          split
          · exact congrArg₂ (fun x y => x * 256 + y)
              (B_congr p q 16 (hlow 16 (by omega)))
              (B_congr p q 17 (hlow 17 (by omega)))
          · rfl
        have hcl : classifyL3 p len (l3Offset p) (ethType p) =
            classifyL3 q len (l3Offset q) (ethType q) := by
          rw [← hl3, ← het]
          exact classifyL3_congr p q len _ _ (hlow _ (by omega))
            (hlow _ (by omega)) (hlow _ (by omega))
        have hkey : hashKey p a b = hashKey q a b :=
          hashKey_congr p q a b (fun j hj => hlow (a + j) (by omega))
        have hpc : portCheck st.ports_map p len ic =
            portCheck st.ports_map q len ic :=
          portCheck_congr st.ports_map p q len ic
            (fun i hi1 _ => hq i (by omega) (by omega))
        simp only [handle_packet, if_neg hlen]
        rw [if_neg hb, if_neg (fun hqb => hb (hbc.mpr hqb))]
        rw [← hcl, heq]
        dsimp only
        rw [← hpc, ← hkey]
        cases hp2 : portCheck st.ports_map p len ic with
        | some r => exact ⟨rfl, rfl, rfl⟩
        | none =>
          cases ht : hashlimit_touch_hash st.sources (hashKey p a b) now with
          | mk adm srcs =>
            cases adm with
            | false => exact ⟨rfl, rfl, rfl⟩
            | true =>
              cases ht2 : hashlimit_touch st.ifaces 0 now with
              | mk adm2 ifs =>
                cases adm2 with
                | false => exact ⟨rfl, rfl, rfl⟩
                | true => exact ⟨rfl, rfl, rfl⟩

theorem C10_witness :
    (handle_packet stBase frameA 70 0).result =
      (handle_packet stBase frameB 70 0).result :=
  (C10_icmp_type_code_ignored stBase frameA frameB 70 0 34 (by decide)
    (fun i h1 h2 => by simp [frameB, h1, h2])).1

end Pmtud
